import Mathlib

set_option maxRecDepth 4000

set_option allowUnsafeReducibility true

attribute [local semireducible] Rat.add Rat.mul Rat.inv Rat.sub

/-!
Verification development for the metrics-aggregation engine of a set of
e-commerce analytics dashboards (pages/Analytics.py,
pages/Category_Analysis.py, pages/Poor_Performance_Analysis.py).

The pandas/numpy arithmetic of the source is embedded shallowly:
numeric cells are exact rationals, and every division that the source
performs on float columns goes through an extended-value type `XR`
that mirrors IEEE-754 special values (NaN, +inf, -inf), since numpy
yields `inf`/`nan` rather than an exception on division by zero.
Rounding to two decimals (`Series.round(2)`) is modelled with numpy's
round-half-to-even rule.  Missing cells (`NaN` inputs) are modelled with
`Option`; pandas `groupby` drops rows whose group keys are null, `sum`
skips null values, and `fillna(0)` replaces NaN (but not infinities).
-/

/-- Extended real value mirroring an IEEE-754 double that is either a
finite (exactly representable, here: rational) number, an infinity, or
NaN.  Used wherever the source divides pandas float columns. -/
inductive XR where
  | fin (q : ℚ)
  | pinf
  | ninf
  | nan
deriving DecidableEq, Repr

/-- Negation on extended values. -/
def XR.neg : XR → XR
  | .fin q => .fin (-q)
  | .pinf => .ninf
  | .ninf => .pinf
  | .nan => .nan

/-- IEEE-style addition: NaN propagates, opposite infinities give NaN. -/
def XR.add : XR → XR → XR
  | .nan, _ => .nan
  | _, .nan => .nan
  | .pinf, .ninf => .nan
  | .ninf, .pinf => .nan
  | .pinf, _ => .pinf
  | .ninf, _ => .ninf
  | .fin _, .pinf => .pinf
  | .fin _, .ninf => .ninf
  | .fin a, .fin b => .fin (a + b)

/-- IEEE-style subtraction. -/
def XR.sub (a b : XR) : XR := XR.add a (XR.neg b)

/-- IEEE-style multiplication: NaN propagates, infinity times zero is NaN. -/
def XR.mul : XR → XR → XR
  | .nan, _ => .nan
  | _, .nan => .nan
  | .fin a, .fin b => .fin (a * b)
  | .fin a, .pinf => if 0 < a then .pinf else if a < 0 then .ninf else .nan
  | .fin a, .ninf => if 0 < a then .ninf else if a < 0 then .pinf else .nan
  | .pinf, .fin b => if 0 < b then .pinf else if b < 0 then .ninf else .nan
  | .ninf, .fin b => if 0 < b then .ninf else if b < 0 then .pinf else .nan
  | .pinf, .pinf => .pinf
  | .pinf, .ninf => .ninf
  | .ninf, .pinf => .ninf
  | .ninf, .ninf => .pinf

/-- IEEE-style division (zero denominators are the +0 produced by the
source's aggregations): nonzero/0 is a signed infinity and 0/0 is NaN,
exactly what numpy produces instead of raising. -/
def XR.div : XR → XR → XR
  | .nan, _ => .nan
  | _, .nan => .nan
  | .fin a, .fin b =>
      if b ≠ 0 then .fin (a / b)
      else if 0 < a then .pinf
      else if a < 0 then .ninf
      else .nan
  | .fin _, .pinf => .fin 0
  | .fin _, .ninf => .fin 0
  | .pinf, .fin b => if b < 0 then .ninf else .pinf
  | .ninf, .fin b => if b < 0 then .pinf else .ninf
  | .pinf, .pinf => .nan
  | .pinf, .ninf => .nan
  | .ninf, .pinf => .nan
  | .ninf, .ninf => .nan

/-- Round a rational to the nearest integer, ties to even (numpy's
`round` convention). -/
def rhe (q : ℚ) : ℤ :=
  let f := ⌊q⌋
  let r := q - f
  if r < 1/2 then f
  else if 1/2 < r then f + 1
  else if f % 2 = 0 then f else f + 1

/-- Round a rational to two decimal places, ties to even (`round(2)`). -/
def round2q (q : ℚ) : ℚ := (rhe (q * 100) : ℚ) / 100

/-- `Series.round(2)` on an extended value: infinities and NaN are
unchanged by numpy's round. -/
def XR.round2 : XR → XR
  | .fin q => .fin (round2q q)
  | .pinf => .pinf
  | .ninf => .ninf
  | .nan => .nan

/-- `fillna(0)` on an extended value: NaN becomes 0, infinities stay. -/
def XR.fillna0 : XR → XR
  | .nan => .fin 0
  | x => x

/-- A Gregorian calendar date, as Python's `datetime.date`. -/
structure Date where
  year : ℤ
  month : ℕ
  day : ℕ
deriving DecidableEq, Repr

/-- Gregorian leap-year rule. -/
def isLeap (y : ℤ) : Bool := y % 4 == 0 && (y % 100 != 0 || y % 400 == 0)

/-- Number of days in a month of a given year. -/
def daysInMonth (y : ℤ) (m : ℕ) : ℕ :=
  if m = 2 then (if isLeap y then 29 else 28)
  else if m = 4 ∨ m = 6 ∨ m = 9 ∨ m = 11 then 30
  else 31

/-- The date is a real calendar date. -/
def Date.Valid (d : Date) : Prop :=
  1 ≤ d.month ∧ d.month ≤ 12 ∧ 1 ≤ d.day ∧ d.day ≤ daysInMonth d.year d.month

instance (d : Date) : Decidable d.Valid := by
  unfold Date.Valid
  infer_instance

/-- Python date comparison `a <= b`: lexicographic on (year, month, day). -/
def dateLe (a b : Date) : Bool :=
  a.year < b.year ||
    (a.year == b.year &&
      (a.month < b.month || (a.month == b.month && a.day ≤ b.day)))

/-- `d - timedelta(days=1)` for a valid date. -/
def predDay (d : Date) : Date :=
  if 2 ≤ d.day then ⟨d.year, d.month, d.day - 1⟩
  else if 2 ≤ d.month then ⟨d.year, d.month - 1, daysInMonth d.year (d.month - 1)⟩
  else ⟨d.year - 1, 12, 31⟩

/-- `d - timedelta(days=n)`, iterating day-by-day. -/
def subDays (d : Date) : ℕ → Date
  | 0 => d
  | n + 1 => predDay (subDays d n)

/-- `get_period_dates(period_type, reference_date)` from
Category_Analysis.py: resolves a named period to (start, end); the
final `else` branch (commented "All Time" in the source) returns
`(None, None)` for any name not matched earlier. -/
def get_period_dates (period_type : String) (reference_date : Date) :
    Option Date × Option Date :=
  if period_type = "Last 7 Days" then
    (some (subDays reference_date 6), some reference_date)
  else if period_type = "Last 30 Days" then
    (some (subDays reference_date 29), some reference_date)
  else if period_type = "This Month" then
    (some ⟨reference_date.year, reference_date.month, 1⟩, some reference_date)
  else if period_type = "Last Month" then
    let first_day_this_month : Date := ⟨reference_date.year, reference_date.month, 1⟩
    let end_date := predDay first_day_this_month
    (some ⟨end_date.year, end_date.month, 1⟩, some end_date)
  else if period_type = "This Quarter" then
    let quarter := (reference_date.month - 1) / 3
    (some ⟨reference_date.year, quarter * 3 + 1, 1⟩, some reference_date)
  else if period_type = "Last Quarter" then
    let first_day_this_quarter : Date :=
      ⟨reference_date.year, ((reference_date.month - 1) / 3) * 3 + 1, 1⟩
    let end_date := predDay first_day_this_quarter
    let quarter := (end_date.month - 1) / 3
    (some ⟨end_date.year, quarter * 3 + 1, 1⟩, some end_date)
  else if period_type = "This Year" then
    (some ⟨reference_date.year, 1, 1⟩, some reference_date)
  else if period_type = "Last Year" then
    (some ⟨reference_date.year - 1, 1, 1⟩, some ⟨reference_date.year - 1, 12, 31⟩)
  else (none, none)

/-- Number of days parsed out of the Poor_Performance_Analysis period
option (`int(period_type.split()[1])`): the selectbox offers exactly
"All Time", "Last 30 Days", "Last 60 Days", "Last 90 Days", on which the
parse yields 30, 60 and 90 respectively. -/
def poorDays (period_type : String) : ℕ :=
  if period_type = "Last 30 Days" then 30
  else if period_type = "Last 60 Days" then 60
  else if period_type = "Last 90 Days" then 90
  else 0

/-- The date filter of Poor_Performance_Analysis.py: for a non-"All Time"
period it keeps the rows with `created_at.date >= max_date - timedelta(days)`
(note: no upper bound is applied). -/
def poorSelects (period_type : String) (max_date d : Date) : Bool :=
  if period_type = "All Time" then true
  else dateLe (subDays max_date (poorDays period_type)) d

/-- The date filter of Category_Analysis.py for a resolved period:
`start_date <= created_at.date <= end_date`. -/
def catSelects (start_date end_date d : Date) : Bool :=
  dateLe start_date d && dateLe d end_date

/-- A row of the orders table (joined with users) as consumed by
`calculate_monthly_metrics` in Analytics.py. -/
structure OrderRow where
  order_id : ℕ
  status : String
  created_at : Date
deriving DecidableEq, Repr

/-- `df['year_month'] = df['created_at'].dt.to_period('M')`: the
year-month key of an order. -/
def monthKey (o : OrderRow) : ℤ × ℕ := (o.created_at.year, o.created_at.month)

/-- Chronological order on year-month keys. -/
def ymLe (a b : ℤ × ℕ) : Bool := a.1 < b.1 || (a.1 == b.1 && a.2 ≤ b.2)

/-- Insert a key into a chronologically sorted key list. -/
def insertYm (k : ℤ × ℕ) : List (ℤ × ℕ) → List (ℤ × ℕ)
  | [] => [k]
  | x :: xs => if ymLe k x then k :: x :: xs else x :: insertYm k xs

/-- Sort year-month keys ascending (pandas `groupby` sorts group keys). -/
def sortYm : List (ℤ × ℕ) → List (ℤ × ℕ)
  | [] => []
  | x :: xs => insertYm x (sortYm xs)

/-- One row of the monthly aggregation of Analytics.py. -/
structure MonthlyRow where
  year_month : ℤ × ℕ
  total_orders : ℕ
  cancelled_orders : ℕ
  cancel_rate : XR
deriving DecidableEq, Repr

/-- The aggregation of one month group: `order_id` count, count of
status == 'Cancelled', and `cancel_rate = cancelled / total * 100`. -/
def monthlyRow (orders : List OrderRow) (k : ℤ × ℕ) : MonthlyRow :=
  let g := orders.filter (fun o => monthKey o == k)
  let cancelled := (g.filter (fun o => o.status == "Cancelled")).length
  ⟨k, g.length, cancelled,
    XR.mul (XR.div (XR.fin cancelled) (XR.fin g.length)) (XR.fin 100)⟩

/-- `calculate_monthly_metrics` from Analytics.py: group the orders by
calendar month of `created_at` (keys ascending), count orders and
cancellations, and attach the unrounded cancel rate. -/
def calculate_monthly_metrics (orders : List OrderRow) : List MonthlyRow :=
  (sortYm (orders.map monthKey).dedup).map (monthlyRow orders)

/-- `display_stats` from Analytics.py: the monthly table with
`cancel_rate` rounded to two decimals. -/
def display_stats (orders : List OrderRow) : List MonthlyRow :=
  (calculate_monthly_metrics orders).map
    (fun r => { r with cancel_rate := r.cancel_rate.round2 })

/-- A row of the order_items ⋈ products ⋈ orders table consumed by the
`product_stats` aggregation in Poor_Performance_Analysis.py.  `cost` and
`sale_price` may be missing (NaN in the source data); the remaining
fields the claims touch are present. -/
structure PRecord where
  id_order : ℕ
  order_id : ℕ
  product_id : ℕ
  name : String
  category : String
  brand : String
  department : String
  cost : Option ℚ
  retail_price : ℚ
  sale_price : Option ℚ
  status : String
  created_at : Date
deriving DecidableEq, Repr

/-- The groupby key of `product_stats`:
(product_id, name, category, brand, department, cost, retail_price). -/
structure PKey where
  product_id : ℕ
  name : String
  category : String
  brand : String
  department : String
  cost : ℚ
  retail_price : ℚ
deriving DecidableEq, Repr

/-- The group key of a record, or `none` when a key column is null —
pandas `groupby` silently drops such rows (its default `dropna=True`). -/
def keyOf (r : PRecord) : Option PKey :=
  r.cost.map (fun c =>
    ⟨r.product_id, r.name, r.category, r.brand, r.department, c, r.retail_price⟩)

/-- One output row of `product_stats`. -/
structure ProductRow where
  key : PKey
  total_sales_count : ℕ
  total_revenue : ℚ
  return_count : ℕ
  return_rate : XR
  avg_sale_price : XR
  profit_per_item : XR
  total_profit : XR
  profit_margin : XR
deriving DecidableEq, Repr

/-- The rows of one product group. -/
def productGroup (rs : List PRecord) (k : PKey) : List PRecord :=
  rs.filter (fun r => keyOf r == some k)

/-- The aggregation and derived metrics of one `product_stats` group,
line by line from Poor_Performance_Analysis.py (lines 88-101): counts
and revenue (`sum` skips null sale prices), then each derived column
rounded to two decimals; `profit_per_item` and `profit_margin` are
computed from the already-rounded `avg_sale_price` column. -/
def mkProductRow (rs : List PRecord) (k : PKey) : ProductRow :=
  let g := productGroup rs k
  let total_sales_count := g.length
  let total_revenue := (g.map (fun r => r.sale_price.getD 0)).sum
  let return_count := (g.filter (fun r => r.status == "Returned")).length
  let return_rate :=
    XR.round2 (XR.mul (XR.div (XR.fin return_count) (XR.fin total_sales_count)) (XR.fin 100))
  let avg_sale_price :=
    XR.round2 (XR.div (XR.fin total_revenue) (XR.fin total_sales_count))
  let profit_per_item := XR.round2 (XR.sub avg_sale_price (XR.fin k.cost))
  let total_profit := XR.round2 (XR.mul profit_per_item (XR.fin total_sales_count))
  let profit_margin :=
    XR.round2 (XR.mul (XR.div profit_per_item avg_sale_price) (XR.fin 100))
  ⟨k, total_sales_count, total_revenue, return_count,
    return_rate, avg_sale_price, profit_per_item, total_profit, profit_margin⟩

/-- `product_stats = product_stats.fillna(0)` applied to the float
columns of a row (the integer count columns are never NaN). -/
def fillRow (r : ProductRow) : ProductRow :=
  { r with
    return_rate := r.return_rate.fillna0
    avg_sale_price := r.avg_sale_price.fillna0
    profit_per_item := r.profit_per_item.fillna0
    total_profit := r.total_profit.fillna0
    profit_margin := r.profit_margin.fillna0 }

/-- `product_stats` from Poor_Performance_Analysis.py: one row per
distinct non-null group key occurring in the input (the display order of
the groups carries no claim content and is modelled as last-occurrence
order of `List.dedup`). -/
def product_stats (rs : List PRecord) : List ProductRow :=
  ((rs.filterMap keyOf).dedup).map (fun k => fillRow (mkProductRow rs k))

/-- A row of the order_items ⋈ products table consumed by the category
aggregation of Category_Analysis.py (`id_x` is the order-item id). -/
structure CatRecord where
  id_x : ℕ
  category : String
  sale_price : ℚ
deriving DecidableEq, Repr

/-- One output row of `category_metrics` (columns Total Sales, Avg
Price, Order Count, Sales %). -/
structure CatRow where
  category : String
  total_sales : ℚ
  avg_price : XR
  order_count : ℕ
  sales_pct : XR
deriving DecidableEq, Repr

/-- The rows of one category group. -/
def catGroup (rs : List CatRecord) (c : String) : List CatRecord :=
  rs.filter (fun r => r.category == c)

/-- One aggregated category row before the Sales % column exists
(`groupby('category').agg({'sale_price': ['sum','mean','count'],
'id_x': 'count'}).round(2)`): the sum and the mean are rounded to two
decimals; `sales_pct` is a placeholder until the column is assigned. -/
def mkCatRow (rs : List CatRecord) (c : String) : CatRow :=
  let g := catGroup rs c
  let total := (g.map (fun r => r.sale_price)).sum
  ⟨c, round2q total,
    XR.round2 (XR.div (XR.fin total) (XR.fin g.length)),
    g.length, XR.nan⟩

/-- Stable insertion into a list sorted descending by `total_sales`
(`sort_values('Total Sales', ascending=False)`). -/
def insertCat (r : CatRow) : List CatRow → List CatRow
  | [] => [r]
  | x :: xs => if x.total_sales < r.total_sales then r :: x :: xs else x :: insertCat r xs

/-- Stable descending sort by `total_sales`. -/
def sortCatDesc : List CatRow → List CatRow
  | [] => []
  | x :: xs => insertCat x (sortCatDesc xs)

/-- `category_metrics` from Category_Analysis.py: aggregate per
category, sort descending by Total Sales, then assign
`Sales % = (Total Sales / Total Sales.sum() * 100).round(2)` where the
sum ranges over the (already rounded) per-category totals. -/
def category_metrics (rs : List CatRecord) : List CatRow :=
  let base := ((rs.map (fun r => r.category)).dedup).map (mkCatRow rs)
  let sorted := sortCatDesc base
  let total_sum := (sorted.map (fun r => r.total_sales)).sum
  sorted.map (fun r =>
    { r with sales_pct :=
        XR.round2 (XR.mul (XR.div (XR.fin r.total_sales) (XR.fin total_sum)) (XR.fin 100)) })

/-- A single order-item record with a positive cost and a zero sale
price: its product's average sale price aggregates to 0. -/
def prC1 : PRecord :=
  ⟨1, 1, 1, "N", "C", "B", "D", some 5, 8, some 0, "Complete", ⟨2024, 1, 5⟩⟩

/-- A single order-item record whose cost is missing. -/
def prC3 : PRecord :=
  ⟨1, 1, 1, "N", "C", "B", "D", none, 8, some 10, "Complete", ⟨2024, 1, 5⟩⟩

/-- The end-to-end scenario of the spec: three January 2024 orders (two
complete, one cancelled) and two February 2024 orders (none cancelled). -/
def ordersC6 : List OrderRow :=
  [⟨1, "Complete", ⟨2024, 1, 5⟩⟩, ⟨2, "Complete", ⟨2024, 1, 12⟩⟩,
   ⟨3, "Cancelled", ⟨2024, 1, 20⟩⟩,
   ⟨4, "Complete", ⟨2024, 2, 3⟩⟩, ⟨5, "Complete", ⟨2024, 2, 14⟩⟩]

/-- Replace a missing sale price by an explicit 0. -/
def zeroNullSalePrice (r : PRecord) : PRecord :=
  { r with sale_price := some (r.sale_price.getD 0) }

/-- The `product_stats` output row of the input `[prC1]`. -/
def rowC1 : ProductRow :=
  ⟨⟨1, "N", "C", "B", "D", 5, 8⟩, 1, 0, 0,
    XR.fin 0, XR.fin 0, XR.fin (-5), XR.fin (-5), XR.ninf⟩

/-- A one-order input for exercising the monthly aggregation. -/
def ordersC8 : List OrderRow := [⟨1, "Complete", ⟨2024, 1, 5⟩⟩]

/-- The monthly row of `ordersC8`. -/
def rowC8 : MonthlyRow := ⟨(2024, 1), 1, 0, XR.fin 0⟩

/-- A returned order item with full data. -/
def prC10 : PRecord :=
  ⟨1, 1, 1, "N", "C", "B", "D", some 3, 8, some 10, "Returned", ⟨2024, 1, 5⟩⟩

/-- The `product_stats` output row of the input `[prC10]`. -/
def rowC10 : ProductRow :=
  ⟨⟨1, "N", "C", "B", "D", 3, 8⟩, 1, 10, 1,
    XR.fin 100, XR.fin 10, XR.fin 7, XR.fin 7, XR.fin 70⟩

/-- A one-category record set with a nonzero sale price. -/
def catC9 : CatRecord := ⟨1, "A", 10⟩

/-- A one-category record set whose only sale price is 0. -/
def catC9n : CatRecord := ⟨1, "A", 0⟩

/-- Spec-side: first day of the month preceding the reference month. -/
def firstDayPrevMonth (d : Date) : Date :=
  if d.month = 1 then ⟨d.year - 1, 12, 1⟩ else ⟨d.year, d.month - 1, 1⟩

/-- Spec-side: last day of the month preceding the reference month. -/
def lastDayPrevMonth (d : Date) : Date :=
  if d.month = 1 then ⟨d.year - 1, 12, 31⟩
  else ⟨d.year, d.month - 1, daysInMonth d.year (d.month - 1)⟩

/-- Spec-side: first day of the quarter preceding the reference quarter
(rolling into the previous year's Q4 when the reference is in Q1). -/
def firstDayPrevQuarter (d : Date) : Date :=
  if d.month ≤ 3 then ⟨d.year - 1, 10, 1⟩
  else ⟨d.year, ((d.month - 1) / 3 - 1) * 3 + 1, 1⟩

/-- Spec-side: last day of the quarter preceding the reference quarter. -/
def lastDayPrevQuarter (d : Date) : Date :=
  if d.month ≤ 3 then ⟨d.year - 1, 12, 31⟩
  else ⟨d.year, ((d.month - 1) / 3) * 3, daysInMonth d.year (((d.month - 1) / 3) * 3)⟩

/-- Claim C7: for every valid reference date, resolving "Last Month"
returns the first day of the preceding month as start and the last day
of that month as end, with correct month lengths and leap years. -/
theorem lastMonth_correct (ref : Date) (h : ref.Valid) :
    get_period_dates "Last Month" ref =
      (some (firstDayPrevMonth ref), some (lastDayPrevMonth ref)) := by
  obtain ⟨y, m, d⟩ := ref
  obtain ⟨h1, h2, h3, h4⟩ := h
  simp only [Date.Valid] at h1 h2 h3 h4
  by_cases hm : m = 1
  · subst hm
    simp [get_period_dates, predDay, firstDayPrevMonth, lastDayPrevMonth]
  · have hm2 : 2 ≤ m := by omega
    simp [get_period_dates, predDay, firstDayPrevMonth, lastDayPrevMonth, hm, hm2]

/-- Claim C5: for every valid reference date, resolving "Last Quarter"
returns the first and last day of the quarter preceding the reference
quarter, rolling back across a year boundary from Q1 to the previous
year's Q4. -/
theorem lastQuarter_correct (ref : Date) (h : ref.Valid) :
    get_period_dates "Last Quarter" ref =
      (some (firstDayPrevQuarter ref), some (lastDayPrevQuarter ref)) := by
  obtain ⟨y, m, d⟩ := ref
  obtain ⟨h1, h2, h3, h4⟩ := h
  simp only [Date.Valid] at h1 h2 h3 h4
  interval_cases m <;>
    simp [get_period_dates, predDay, firstDayPrevQuarter, lastDayPrevQuarter, daysInMonth]

/-- Claim C2 (amended): for every period name outside the eight names
the resolver matches explicitly, `get_period_dates` does not fail: it
falls through to the final else branch and returns `(none, none)`, the
same value as "All Time"; there is no InvalidPeriod error anywhere. -/
theorem unrecognized_period (name : String) (ref : Date)
    (h : name ∉ ["Last 7 Days", "Last 30 Days", "This Month", "Last Month",
      "This Quarter", "Last Quarter", "This Year", "Last Year"]) :
    get_period_dates name ref = (none, none) := by
  simp only [List.mem_cons, List.mem_singleton, not_or] at h
  obtain ⟨e1, e2, e3, e4, e5, e6, e7, e8⟩ := h
  simp [get_period_dates, e1, e2, e3, e4, e5, e6, e7, e8]

/-- Lex comparison unfolded to a proposition. -/
theorem dateLe_iff (a b : Date) : dateLe a b = true ↔
    (a.year < b.year ∨ (a.year = b.year ∧
      (a.month < b.month ∨ (a.month = b.month ∧ a.day ≤ b.day)))) := by
  simp [dateLe]

/-- First case of `predDay`: within the month. -/
theorem predDay_within (y : ℤ) (m dd : ℕ) (h : 2 ≤ dd) :
    predDay ⟨y, m, dd⟩ = ⟨y, m, dd - 1⟩ := by
  simp [predDay, h]

/-- Second case of `predDay`: first day of a non-January month. -/
theorem predDay_month (y : ℤ) (m dd : ℕ) (h : ¬ 2 ≤ dd) (h2 : 2 ≤ m) :
    predDay ⟨y, m, dd⟩ = ⟨y, m - 1, daysInMonth y (m - 1)⟩ := by
  simp [predDay, h, h2]

/-- Third case of `predDay`: back across the year boundary. -/
theorem predDay_year (y : ℤ) (m dd : ℕ) (h : ¬ 2 ≤ dd) (h2 : ¬ 2 ≤ m) :
    predDay ⟨y, m, dd⟩ = ⟨y - 1, 12, 31⟩ := by
  simp [predDay, h, h2]

/-- Lex comparison on explicit dates. -/
theorem dateLe_mk_iff (y1 : ℤ) (m1 d1 : ℕ) (y2 : ℤ) (m2 d2 : ℕ) :
    dateLe ⟨y1, m1, d1⟩ ⟨y2, m2, d2⟩ = true ↔
      (y1 < y2 ∨ (y1 = y2 ∧ (m1 < m2 ∨ (m1 = m2 ∧ d1 ≤ d2)))) := by
  simp [dateLe]

/-- Going one day back never moves the date forward. -/
theorem dateLe_predDay (d : Date) : dateLe (predDay d) d = true := by
  obtain ⟨y, m, dd⟩ := d
  by_cases h1 : 2 ≤ dd
  · rw [predDay_within y m dd h1, dateLe_mk_iff]
    omega
  · by_cases h2 : 2 ≤ m
    · rw [predDay_month y m dd h1 h2, dateLe_mk_iff]
      omega
    · rw [predDay_year y m dd h1 h2, dateLe_mk_iff]
      omega

/-- Going one day back moves strictly back. -/
theorem not_dateLe_predDay (d : Date) : dateLe d (predDay d) = false := by
  obtain ⟨y, m, dd⟩ := d
  rw [Bool.eq_false_iff]
  intro hc
  by_cases h1 : 2 ≤ dd
  · rw [predDay_within y m dd h1, dateLe_mk_iff] at hc
    omega
  · by_cases h2 : 2 ≤ m
    · rw [predDay_month y m dd h1 h2, dateLe_mk_iff] at hc
      omega
    · rw [predDay_year y m dd h1 h2, dateLe_mk_iff] at hc
      omega

/-- Transitivity of the date order. -/
theorem dateLe_trans (a b c : Date) (h1 : dateLe a b = true) (h2 : dateLe b c = true) :
    dateLe a c = true := by
  rw [dateLe_iff] at h1 h2 ⊢
  rcases h1 with h | ⟨hy, h⟩ <;> rcases h2 with g | ⟨gy, g⟩ <;>
    first
      | (left; omega)
      | (right; constructor; omega; omega)

/-- Reflexivity of the date order. -/
theorem dateLe_refl (a : Date) : dateLe a a = true := by
  simp [dateLe_iff]

/-- Thirty days back is one day before twenty-nine days back. -/
theorem subDays_30 (d : Date) : subDays d 30 = predDay (subDays d 29) := rfl

/-- Claim C4 (amended): the Category_Analysis resolver maps
"Last 30 Days" to the 30-day inclusive window [reference - 29d,
reference], but the Poor_Performance_Analysis cutoff filter keeps every
date at or after reference - 30d (with no upper bound), so the poor
performance page additionally selects the day reference - 30d; every
date selected by the category page is selected by the other page. -/
theorem last30_pages_differ (ref : Date) :
    get_period_dates "Last 30 Days" ref = (some (subDays ref 29), some ref) ∧
    poorSelects "Last 30 Days" ref (subDays ref 30) = true ∧
    catSelects (subDays ref 29) ref (subDays ref 30) = false ∧
    ∀ d, catSelects (subDays ref 29) ref d = true →
      poorSelects "Last 30 Days" ref d = true := by
  refine ⟨by simp [get_period_dates], ?_, ?_, ?_⟩
  · simp [poorSelects, poorDays, dateLe_refl]
  · rw [subDays_30, catSelects, not_dateLe_predDay, Bool.false_and]
  · intro d h
    rw [catSelects, Bool.and_eq_true] at h
    rw [poorSelects]
    simp only [if_neg (by decide : ¬ ("Last 30 Days" = "All Time"))]
    rw [show poorDays "Last 30 Days" = 30 from rfl, subDays_30]
    exact dateLe_trans _ _ _ (dateLe_predDay (subDays ref 29)) h.1

/-- The half-even rounding is the floor or the floor plus one. -/
theorem rhe_mem (q : ℚ) : rhe q = ⌊q⌋ ∨ rhe q = ⌊q⌋ + 1 := by
  simp only [rhe]
  split_ifs <;> simp

/-- Half-even rounding moves a value by at most one half. -/
theorem abs_rhe_sub_le (q : ℚ) : |(rhe q : ℚ) - q| ≤ 1/2 := by
  have h1 := Int.floor_le q
  have h2 := Int.lt_floor_add_one q
  simp only [rhe]
  split_ifs with a b c <;> rw [abs_le] <;> constructor <;> push_cast <;> linarith

/-- Half-even rounding preserves nonnegativity. -/
theorem rhe_nonneg (q : ℚ) (h : 0 ≤ q) : 0 ≤ rhe q := by
  have h1 : 0 ≤ ⌊q⌋ := Int.floor_nonneg.mpr h
  simp only [rhe]
  split_ifs <;> omega

/-- Half-even rounding never exceeds an integer upper bound. -/
theorem rhe_le (q : ℚ) (n : ℤ) (h : q ≤ n) : rhe q ≤ n := by
  have hf : ⌊q⌋ ≤ n := by
    have := Int.floor_le_floor h
    simpa using this
  have hfq := Int.floor_le q
  simp only [rhe]
  split_ifs with a b
  · exact hf
  · have hc : (⌊q⌋ : ℚ) < (n : ℚ) := by linarith
    have : ⌊q⌋ < n := by exact_mod_cast hc
    omega
  · exact hf
  · have hc : (⌊q⌋ : ℚ) < (n : ℚ) := by linarith
    have : ⌊q⌋ < n := by exact_mod_cast hc
    omega

/-- Two-decimal rounding preserves nonnegativity. -/
theorem round2q_nonneg (q : ℚ) (h : 0 ≤ q) : 0 ≤ round2q q := by
  have h2 := rhe_nonneg (q * 100) (by linarith)
  rw [round2q]
  apply div_nonneg _ (by norm_num)
  exact_mod_cast h2

/-- Two-decimal rounding never exceeds the bound 100. -/
theorem round2q_le_100 (q : ℚ) (h : q ≤ 100) : round2q q ≤ 100 := by
  have h2 : rhe (q * 100) ≤ (10000 : ℤ) := rhe_le _ _ (by push_cast; linarith)
  rw [round2q, div_le_iff₀ (by norm_num : (0:ℚ) < 100)]
  have : ((rhe (q * 100) : ℚ)) ≤ ((10000 : ℤ) : ℚ) := by exact_mod_cast h2
  push_cast at this
  linarith

/-- Two-decimal rounding moves a value by at most 1/200. -/
theorem abs_round2q_sub_le (q : ℚ) : |round2q q - q| ≤ 1/200 := by
  have h := abs_rhe_sub_le (q * 100)
  rw [round2q]
  have hrw : (rhe (q * 100) : ℚ) / 100 - q = ((rhe (q * 100) : ℚ) - q * 100) / 100 := by
    ring
  rw [hrw, abs_div, abs_of_pos (by norm_num : (0:ℚ) < 100)]
  linarith

/-- Membership in a sorted insertion. -/
theorem mem_insertYm (a k : ℤ × ℕ) (l : List (ℤ × ℕ)) :
    a ∈ insertYm k l ↔ a = k ∨ a ∈ l := by
  induction l with
  | nil => simp [insertYm]
  | cons x xs ih =>
    rw [insertYm]
    split_ifs
    · simp [or_comm, or_assoc, or_left_comm]
    · simp only [List.mem_cons, ih]
      tauto

/-- Sorting the month keys does not change membership. -/
theorem mem_sortYm (a : ℤ × ℕ) (l : List (ℤ × ℕ)) : a ∈ sortYm l ↔ a ∈ l := by
  induction l with
  | nil => simp [sortYm]
  | cons x xs ih =>
    rw [sortYm, mem_insertYm, ih]
    simp

/-- Claim C8: in every row of the monthly metrics output, the
cancelled count is at most the total count, and the cancel rate is a
finite number in [0, 100]. -/
theorem monthly_bounds (orders : List OrderRow) (hne : orders ≠ [])
    (row : MonthlyRow) (hrow : row ∈ calculate_monthly_metrics orders) :
    row.cancelled_orders ≤ row.total_orders ∧
    ∃ q, row.cancel_rate = XR.fin q ∧ 0 ≤ q ∧ q ≤ 100 := by
  rw [calculate_monthly_metrics] at hrow
  obtain ⟨k, hk, rfl⟩ := List.mem_map.mp hrow
  have hk2 : k ∈ (orders.map monthKey).dedup := (mem_sortYm _ _).mp hk
  rw [List.mem_dedup] at hk2
  obtain ⟨o, ho, hko⟩ := List.mem_map.mp hk2
  have hog : o ∈ orders.filter (fun o => monthKey o == k) :=
    List.mem_filter.mpr ⟨ho, by simp [hko]⟩
  have hglen : 0 < (orders.filter (fun o => monthKey o == k)).length :=
    List.length_pos.mpr (List.ne_nil_of_mem hog)
  have hcle : (((orders.filter (fun o => monthKey o == k)).filter
      (fun o => o.status == "Cancelled")).length) ≤
      (orders.filter (fun o => monthKey o == k)).length :=
    List.length_filter_le _ _
  constructor
  · simpa [monthlyRow] using hcle
  · have htq : ((orders.filter (fun o => monthKey o == k)).length : ℚ) ≠ 0 := by
      exact_mod_cast Nat.pos_iff_ne_zero.mp hglen
    refine ⟨(((orders.filter (fun o => monthKey o == k)).filter
        (fun o => o.status == "Cancelled")).length : ℚ) /
        ((orders.filter (fun o => monthKey o == k)).length : ℚ) * 100, ?_, ?_, ?_⟩
    · simp [monthlyRow, XR.div, XR.mul, htq]
    · positivity
    · have hc : (((orders.filter (fun o => monthKey o == k)).filter
          (fun o => o.status == "Cancelled")).length : ℚ) /
          ((orders.filter (fun o => monthKey o == k)).length : ℚ) ≤ 1 := by
        rw [div_le_one (by positivity)]
        exact_mod_cast hcle
      linarith

/-- Finite-by-finite division with a nonzero denominator. -/
theorem XR.div_fin_of_ne (a b : ℚ) (hb : b ≠ 0) :
    XR.div (.fin a) (.fin b) = .fin (a / b) := by
  simp [XR.div, hb]

/-- Finite-by-zero division yields a signed infinity or NaN. -/
theorem XR.div_fin_zero (a : ℚ) :
    XR.div (.fin a) (.fin 0) =
      if 0 < a then .pinf else if a < 0 then .ninf else .nan := by
  simp [XR.div]

/-- Finite multiplication. -/
theorem XR.mul_fin (a b : ℚ) : XR.mul (.fin a) (.fin b) = .fin (a * b) := rfl

/-- Finite subtraction. -/
theorem XR.sub_fin (a b : ℚ) : XR.sub (.fin a) (.fin b) = .fin (a - b) := by
  show XR.fin (a + -b) = XR.fin (a - b)
  ring_nf

/-- Rounding a finite value. -/
theorem XR.round2_fin (a : ℚ) : (XR.fin a).round2 = .fin (round2q a) := rfl

/-- `fillna(0)` keeps finite values. -/
theorem XR.fillna0_fin (a : ℚ) : (XR.fin a).fillna0 = .fin a := rfl

/-- Every key that `product_stats` groups on comes from a record, so
its group is non-empty. -/
theorem productGroup_pos (rs : List PRecord) (k : PKey)
    (hk : k ∈ (rs.filterMap keyOf).dedup) : 0 < (productGroup rs k).length := by
  rw [List.mem_dedup, List.mem_filterMap] at hk
  obtain ⟨r, hr, hkr⟩ := hk
  have : r ∈ productGroup rs k := List.mem_filter.mpr ⟨hr, by simp [hkr]⟩
  exact List.length_pos.mpr (List.ne_nil_of_mem this)

/-- Claim C10: every `product_stats` row comes from a non-empty group,
so `total_sales_count` is at least 1 and bounds `return_count`; the
divisions by `total_sales_count` in `return_rate` and `avg_sale_price`
therefore yield finite values, and `return_rate` lies in [0, 100]. -/
theorem product_stats_sound (rs : List PRecord) (row : ProductRow)
    (hrow : row ∈ product_stats rs) :
    0 < row.total_sales_count ∧ row.return_count ≤ row.total_sales_count ∧
    (∃ q, row.return_rate = XR.fin q ∧ 0 ≤ q ∧ q ≤ 100) ∧
    (∃ a, row.avg_sale_price = XR.fin a) := by
  rw [product_stats] at hrow
  obtain ⟨k, hk, rfl⟩ := List.mem_map.mp hrow
  have ht := productGroup_pos rs k hk
  have htq : ((productGroup rs k).length : ℚ) ≠ 0 := by
    exact_mod_cast Nat.pos_iff_ne_zero.mp ht
  have hcle : ((productGroup rs k).filter (fun r => r.status == "Returned")).length ≤
      (productGroup rs k).length := List.length_filter_le _ _
  have hfrac : (((productGroup rs k).filter (fun r => r.status == "Returned")).length : ℚ) /
      ((productGroup rs k).length : ℚ) * 100 ≤ 100 := by
    have hc : (((productGroup rs k).filter (fun r => r.status == "Returned")).length : ℚ) /
        ((productGroup rs k).length : ℚ) ≤ 1 := by
      rw [div_le_one (by positivity)]
      exact_mod_cast hcle
    linarith
  refine ⟨?_, ?_, ?_, ?_⟩
  · simpa [mkProductRow, fillRow] using ht
  · simpa [mkProductRow, fillRow] using hcle
  · refine ⟨round2q ((((productGroup rs k).filter
      (fun r => r.status == "Returned")).length : ℚ) /
      ((productGroup rs k).length : ℚ) * 100), ?_, ?_, ?_⟩
    · simp [mkProductRow, fillRow, XR.div_fin_of_ne _ _ htq, XR.mul_fin,
        XR.round2_fin, XR.fillna0_fin]
    · exact round2q_nonneg _ (by positivity)
    · exact round2q_le_100 _ hfrac
  · refine ⟨round2q ((((productGroup rs k).map (fun r => r.sale_price.getD 0)).sum : ℚ) /
      ((productGroup rs k).length : ℚ)), ?_⟩
    simp [mkProductRow, fillRow, XR.div_fin_of_ne _ _ htq, XR.round2_fin, XR.fillna0_fin]

/-- Claim C1 (amended): no `product_stats` row has
`total_sales_count = 0`; when `avg_sale_price` is 0, `profit_margin` is
0 only in the 0/0 case (`profit_per_item = 0`, where the NaN is filled
with 0), while a nonzero `profit_per_item` divided by the zero average
produces a signed infinity that `fillna(0)` does not replace. -/
theorem product_stats_zero_avg (rs : List PRecord) (row : ProductRow)
    (hrow : row ∈ product_stats rs) :
    0 < row.total_sales_count ∧
    (row.avg_sale_price = XR.fin 0 →
      ∀ p, row.profit_per_item = XR.fin p →
        row.profit_margin =
          (if p = 0 then XR.fin 0 else if 0 < p then XR.pinf else XR.ninf)) := by
  rw [product_stats] at hrow
  obtain ⟨k, hk, rfl⟩ := List.mem_map.mp hrow
  have ht := productGroup_pos rs k hk
  have htq : ((productGroup rs k).length : ℚ) ≠ 0 := by
    exact_mod_cast Nat.pos_iff_ne_zero.mp ht
  constructor
  · simpa [mkProductRow, fillRow] using ht
  · intro havg p hppi
    simp only [mkProductRow, fillRow, XR.div_fin_of_ne _ _ htq, XR.round2_fin,
      XR.fillna0_fin, XR.sub_fin, XR.fin.injEq] at havg hppi ⊢
    rw [havg] at hppi
    rw [havg, hppi]
    rcases lt_trichotomy p 0 with hp | hp | hp
    · have h1 : ¬ 0 < p := by linarith
      have h2 : ¬ p = 0 := by linarith
      simp [XR.div_fin_zero, XR.mul, XR.round2, XR.fillna0, h1, h2, hp,
        (by norm_num : (0:ℚ) < 100)]
    · subst hp
      simp [XR.div_fin_zero, XR.mul, XR.round2, XR.fillna0]
    · have h2 : ¬ p = 0 := by linarith
      simp [XR.div_fin_zero, XR.mul, XR.round2, XR.fillna0, hp, h2,
        (by norm_num : (0:ℚ) < 100)]

/-- `keyOf` ignores the sale price. -/
theorem keyOf_zeroNullSalePrice (r : PRecord) : keyOf (zeroNullSalePrice r) = keyOf r := rfl

/-- A record with a null cost has no group key. -/
theorem keyOf_eq_none (r : PRecord) (h : r.cost = none) : keyOf r = none := by
  simp [keyOf, h]

/-- Dropping the null-cost records leaves the key list unchanged. -/
theorem filterMap_keyOf_filter (rs : List PRecord) :
    (rs.filter (fun r => r.cost.isSome)).filterMap keyOf = rs.filterMap keyOf := by
  induction rs with
  | nil => rfl
  | cons r rs ih =>
    cases hr : r.cost with
    | none =>
      rw [List.filter_cons, List.filterMap_cons, keyOf_eq_none r hr]
      simp [hr, ih]
    | some c =>
      rw [List.filter_cons, List.filterMap_cons]
      simp only [hr, Option.isSome_some, if_pos]
      rw [List.filterMap_cons, ih]

/-- Dropping the null-cost records leaves every group unchanged. -/
theorem productGroup_filter (rs : List PRecord) (k : PKey) :
    productGroup (rs.filter (fun r => r.cost.isSome)) k = productGroup rs k := by
  induction rs with
  | nil => rfl
  | cons r rs ih =>
    cases hr : r.cost with
    | none =>
      have hq : (keyOf r == some k) = false := by
        simp [keyOf_eq_none r hr]
      rw [productGroup, List.filter_cons]
      simp only [hr, Option.isSome_none, Bool.false_eq_true, if_false]
      rw [productGroup, List.filter_cons, hq]
      simpa [productGroup] using ih
    | some c =>
      rw [productGroup, List.filter_cons]
      simp only [hr, Option.isSome_some, if_pos]
      rw [List.filter_cons, productGroup, List.filter_cons]
      by_cases hq : (keyOf r == some k) = true
      · simp only [hq, if_pos]
        simpa [productGroup] using congrArg (List.cons r) ih
      · simp only [Bool.not_eq_true] at hq
        simp only [hq, Bool.false_eq_true, if_false]
        simpa [productGroup] using ih

/-- Zeroing the null sale prices leaves every group pointwise mapped. -/
theorem productGroup_map_zero (rs : List PRecord) (k : PKey) :
    productGroup (rs.map zeroNullSalePrice) k =
      (productGroup rs k).map zeroNullSalePrice := by
  induction rs with
  | nil => rfl
  | cons r rs ih =>
    rw [List.map_cons, productGroup, List.filter_cons, productGroup, List.filter_cons]
    by_cases hq : (keyOf r == some k) = true
    · have hq2 : (keyOf (zeroNullSalePrice r) == some k) = true := by
        rw [keyOf_zeroNullSalePrice]; exact hq
      simp only [hq, hq2, if_pos, List.map_cons]
      exact congrArg (List.cons (zeroNullSalePrice r)) (by simpa [productGroup] using ih)
    · simp only [Bool.not_eq_true] at hq
      have hq2 : (keyOf (zeroNullSalePrice r) == some k) = false := by
        rw [keyOf_zeroNullSalePrice]; exact hq
      simp only [hq, hq2, Bool.false_eq_true, if_false]
      simpa [productGroup] using ih

/-- A group row is invariant under both null-handling transformations. -/
theorem mkProductRow_invariant (rs : List PRecord) (k : PKey) :
    mkProductRow (rs.filter (fun r => r.cost.isSome)) k = mkProductRow rs k ∧
    mkProductRow (rs.map zeroNullSalePrice) k = mkProductRow rs k := by
  constructor
  · rw [mkProductRow, mkProductRow, productGroup_filter]
  · rw [mkProductRow, mkProductRow, productGroup_map_zero]
    have h1 : ((productGroup rs k).map zeroNullSalePrice).length =
        (productGroup rs k).length := List.length_map _ _
    have h2 : ((productGroup rs k).map zeroNullSalePrice).map
        (fun r => r.sale_price.getD 0) =
        (productGroup rs k).map (fun r => r.sale_price.getD 0) := by
      rw [List.map_map]
      exact List.map_congr_left (fun r _ => by simp [zeroNullSalePrice])
    have h3 : ((productGroup rs k).map zeroNullSalePrice).filter
        (fun r => r.status == "Returned") =
        ((productGroup rs k).filter (fun r => r.status == "Returned")).map
          zeroNullSalePrice := by
      rw [List.filter_map]
      rfl
    rw [h1, h2, h3, List.length_map]

/-- Claim C3 (amended): a null sale price is effectively treated as 0
(zeroing it changes nothing), but a record with a null cost is not
given cost 0: the groupby drops it, so removing the null-cost records
changes nothing either — in particular such a product gets no row. -/
theorem product_stats_null_handling (rs : List PRecord) :
    product_stats (rs.filter (fun r => r.cost.isSome)) = product_stats rs ∧
    product_stats (rs.map zeroNullSalePrice) = product_stats rs := by
  constructor
  · rw [product_stats, product_stats, filterMap_keyOf_filter]
    exact List.map_congr_left (fun k _ => by
      rw [(mkProductRow_invariant rs k).1])
  · rw [product_stats, product_stats, List.filterMap_map]
    have hk : (rs.filterMap (keyOf ∘ zeroNullSalePrice)) = rs.filterMap keyOf := by
      exact List.filterMap_congr (fun r _ => keyOf_zeroNullSalePrice r)
    rw [hk]
    exact List.map_congr_left (fun k _ => by
      rw [(mkProductRow_invariant rs k).2])

/-- Rounding each summand moves a list sum by at most `n`/200. -/
theorem abs_sum_round2q (l : List ℚ) :
    |((l.map round2q).sum) - l.sum| ≤ (l.length : ℚ) * (1/200) := by
  induction l with
  | nil => simp
  | cons x xs ih =>
    simp only [List.map_cons, List.sum_cons, List.length_cons]
    have h := abs_round2q_sub_le x
    have step : |round2q x + (xs.map round2q).sum - (x + xs.sum)| ≤
        |round2q x - x| + |(xs.map round2q).sum - xs.sum| := by
      have := abs_add (round2q x - x) ((xs.map round2q).sum - xs.sum)
      calc |round2q x + (xs.map round2q).sum - (x + xs.sum)|
          = |(round2q x - x) + ((xs.map round2q).sum - xs.sum)| := by ring_nf
        _ ≤ _ := this
    push_cast
    calc |round2q x + (xs.map round2q).sum - (x + xs.sum)|
        ≤ |round2q x - x| + |(xs.map round2q).sum - xs.sum| := step
      _ ≤ 1/200 + (xs.length : ℚ) * (1/200) := by
          have := abs_round2q_sub_le x
          linarith
      _ = ((xs.length : ℚ) + 1) * (1/200) := by ring

/-- Distributing a division and scale over a list sum. -/
theorem sum_map_div_mul (l : List ℚ) (S : ℚ) :
    (l.map (fun t => t / S * 100)).sum = l.sum / S * 100 := by
  induction l with
  | nil => simp
  | cons x xs ih =>
    simp only [List.map_cons, List.sum_cons, ih]
    ring

/-- The Sales % assignment keeps every other column. -/
theorem category_metrics_totals (rs : List CatRecord) :
    (category_metrics rs).map (fun r => r.total_sales) =
      (sortCatDesc (((rs.map (fun r => r.category)).dedup).map
        (mkCatRow rs))).map (fun r => r.total_sales) := by
  rw [category_metrics]
  rw [List.map_map]
  rfl

/-- Claim C9 (amended): when the rounded per-category totals sum to a
nonzero value S, each Sales % equals `round2q(total / S * 100)` and the
unrounded shares sum to exactly 100, so the rounded Sales % values sum
to 100 within 1/200 per category. -/
theorem category_pct_sum (rs : List CatRecord) (S : ℚ)
    (hS : S = ((category_metrics rs).map (fun r => r.total_sales)).sum)
    (h0 : S ≠ 0) :
    (∀ row ∈ category_metrics rs,
      row.sales_pct = XR.fin (round2q (row.total_sales / S * 100))) ∧
    |((category_metrics rs).map (fun r => round2q (r.total_sales / S * 100))).sum - 100| ≤
      ((category_metrics rs).length : ℚ) * (1 / 200) := by
  have hSin : ((sortCatDesc (((rs.map (fun r => r.category)).dedup).map
      (mkCatRow rs))).map (fun r => r.total_sales)).sum = S := by
    rw [hS, category_metrics_totals]
  constructor
  · intro row hrow
    rw [category_metrics] at hrow
    obtain ⟨b, hb, rfl⟩ := List.mem_map.mp hrow
    simp only [hSin]
    rw [XR.div_fin_of_ne _ _ h0, XR.mul_fin, XR.round2_fin]
  · have hmap : ((category_metrics rs).map (fun r => round2q (r.total_sales / S * 100))) =
        (((category_metrics rs).map (fun r => r.total_sales)).map
          (fun t => round2q (t / S * 100))) := by
      rw [List.map_map]
      rfl
    have hmap2 : (((category_metrics rs).map (fun r => r.total_sales)).map
        (fun t => round2q (t / S * 100))) =
        ((((category_metrics rs).map (fun r => r.total_sales)).map
          (fun t => t / S * 100)).map round2q) := by
      rw [List.map_map, List.map_map, List.map_map]
      rfl
    rw [hmap, hmap2]
    have hsum : (((category_metrics rs).map (fun r => r.total_sales)).map
        (fun t => t / S * 100)).sum = 100 := by
      rw [sum_map_div_mul, ← hS, div_self h0, one_mul]
    have hlen : ((((category_metrics rs).map (fun r => r.total_sales)).map
        (fun t => t / S * 100)).length : ℚ) = ((category_metrics rs).length : ℚ) := by
      rw [List.length_map, List.length_map]
    have := abs_sum_round2q (((category_metrics rs).map (fun r => r.total_sales)).map
      (fun t => t / S * 100))
    rw [hsum, hlen] at this
    exact this

/-- Claim C1 counterexample: on one record with cost 5 and sale price
0, the product's `avg_sale_price` is 0 yet `profit_margin` is negative
infinity, not 0. -/
theorem product_stats_inf_margin_counterexample :
    product_stats [prC1] = [rowC1] ∧
    rowC1.avg_sale_price = XR.fin 0 ∧ rowC1.profit_margin = XR.ninf := by decide

/-- Witness for C1 at the concrete input `[prC1]`. -/
theorem product_stats_zero_avg_witness : rowC1.profit_margin = XR.ninf := by
  have h := (product_stats_zero_avg [prC1] rowC1 (by decide)).2 (by decide) (-5) (by decide)
  norm_num at h
  exact h

/-- Claim C2 counterexample: an unrecognized period name returns the
All Time value `(none, none)` instead of failing with an error. -/
theorem unrecognized_period_counterexample :
    get_period_dates "NotAPeriod" ⟨2024, 5, 1⟩ = (none, none) := by decide

/-- Witness for C2 at the concrete name "Bogus". -/
theorem unrecognized_period_witness : get_period_dates "Bogus" ⟨2024, 6, 1⟩ = (none, none) :=
  unrecognized_period "Bogus" ⟨2024, 6, 1⟩ (by decide)

/-- Claim C3 counterexample: a product whose only record has a null
cost gets no `product_stats` row at all (the groupby drops the record),
instead of being aggregated with cost 0. -/
theorem product_stats_null_cost_counterexample : product_stats [prC3] = [] := by decide

/-- Claim C4 counterexample: with reference 2024-03-31 the category
page's window starts at 2024-03-02, so 2024-03-01 is selected by the
poor-performance filter but not by the category filter — the two pages
do not select the same set of dates. -/
theorem last30_pages_counterexample :
    get_period_dates "Last 30 Days" ⟨2024, 3, 31⟩ =
      (some ⟨2024, 3, 2⟩, some ⟨2024, 3, 31⟩) ∧
    poorSelects "Last 30 Days" ⟨2024, 3, 31⟩ ⟨2024, 3, 1⟩ = true ∧
    catSelects ⟨2024, 3, 2⟩ ⟨2024, 3, 31⟩ ⟨2024, 3, 1⟩ = false := by decide

/-- Witness for C5 at the reference date 2024-01-15. -/
theorem lastQuarter_witness :
    get_period_dates "Last Quarter" ⟨2024, 1, 15⟩ =
      (some ⟨2023, 10, 1⟩, some ⟨2023, 12, 31⟩) := by
  have h := lastQuarter_correct ⟨2024, 1, 15⟩ (by decide)
  rw [h]
  decide

/-- Claim C6: on three January 2024 orders (two complete, one
cancelled) and two February 2024 orders (none cancelled), the monthly
metrics table has exactly two rows in ascending month order, with
cancel rates 33.33 and 0 after rounding to two decimals. -/
theorem monthly_metrics_example :
    display_stats ordersC6 =
      [⟨(2024, 1), 3, 1, XR.fin (3333/100)⟩, ⟨(2024, 2), 2, 0, XR.fin 0⟩] := by decide

/-- Witness for C7 at the reference date 2024-03-15 (leap year). -/
theorem lastMonth_witness :
    get_period_dates "Last Month" ⟨2024, 3, 15⟩ =
      (some ⟨2024, 2, 1⟩, some ⟨2024, 2, 29⟩) := by
  have h := lastMonth_correct ⟨2024, 3, 15⟩ (by decide)
  rw [h]
  decide

/-- Witness for C8 at a concrete one-order input. -/
theorem monthly_bounds_witness :
    rowC8.cancelled_orders ≤ rowC8.total_orders ∧
    ∃ q, rowC8.cancel_rate = XR.fin q ∧ 0 ≤ q ∧ q ≤ 100 :=
  monthly_bounds ordersC8 (by decide) rowC8 (by decide)

/-- Claim C9 counterexample: on a non-empty input whose only sale
price is 0, the Sales % column is NaN (a 0/0), so the percentages do
not sum to 100. -/
theorem category_pct_nan_counterexample :
    (category_metrics [catC9n]).map (fun r => r.sales_pct) = [XR.nan] := by decide

/-- Witness for C9 at a concrete one-category input with total 10. -/
theorem category_pct_sum_witness :
    |((category_metrics [catC9]).map
      (fun r => round2q (r.total_sales / 10 * 100))).sum - 100| ≤
      ((category_metrics [catC9]).length : ℚ) * (1 / 200) :=
  (category_pct_sum [catC9] 10 (by decide) (by norm_num)).2

/-- Witness for C10 at a concrete one-record input. -/
theorem product_stats_sound_witness :
    0 < rowC10.total_sales_count ∧ rowC10.return_count ≤ rowC10.total_sales_count ∧
    (∃ q, rowC10.return_rate = XR.fin q ∧ 0 ≤ q ∧ q ≤ 100) ∧
    (∃ a, rowC10.avg_sale_price = XR.fin a) :=
  product_stats_sound [prC10] rowC10 (by decide)
